import Mathlib

/-!
Verification of the document ingestion orchestration pipeline of the
juristi-haveri repository, shallowly embedded from the Python sources
`backend/app/services/document_processing_service.py`,
`backend/app/services/document_service.py`,
`backend/app/services/text_extraction_service.py`,
`backend/app/services/vector_store_service.py`,
`backend/app/tasks/document_processing.py` and
`backend/app/models/document.py`.

The embedding keeps the stored status values as raw strings, exactly as the
Python code writes them into MongoDB, so that the out-of-enum write of the
literal string PROCESSED by the deduplication branch is visible.  Two
distinct record fields are kept for the processed-text reference
(`processed_text_key`, written only by the dedup branch, and
`processed_text_storage_key`, written only by `finalize_document_processing`),
again exactly as in the source.
-/

namespace Juristi

/-- Whitespace test used to model the Python `str.strip` method. -/
def isPySpace (c : Char) : Bool := c.isWhitespace

/-- Model of Python `s.strip()` on the character list of a string. -/
def pyStripData (l : List Char) : List Char :=
  ((l.dropWhile isPySpace).reverse.dropWhile isPySpace).reverse

/-- Model of Python `s.strip()`. -/
def pyStrip (s : String) : String := ⟨pyStripData s.data⟩

/-- Length of `s.strip()`, i.e. Python `len(s.strip())`. -/
def pyStripLen (s : String) : Nat := (pyStripData s.data).length

/-- Boolean list-prefix test on characters. -/
def listPrefix : List Char → List Char → Bool
  | [], _ => true
  | _ :: _, [] => false
  | a :: as, b :: bs => a == b && listPrefix as bs

/-- Boolean infix (substring) test on character lists. -/
def listInfix (p : List Char) : List Char → Bool
  | [] => listPrefix p []
  | l@(_ :: rest) => listPrefix p l || listInfix p rest

/-- Model of the Python `pat in s` substring test. -/
def strContainsSub (s pat : String) : Bool := listInfix pat.data s.data

/-- The members of the `DocumentStatus` enum of
`backend/app/models/document.py` (a str-valued Enum). -/
def documentStatusValues : List String := ["PENDING", "READY", "FAILED"]

/-- `OCR_FALLBACK_THRESHOLD` of `document_processing_service.py`. -/
def OCR_FALLBACK_THRESHOLD : Nat := 100

/-- The top-level functions defined by
`backend/app/services/text_extraction_service.py`; the orchestrator looks
up `extract_text_with_ocr` in this module with `getattr(..., None)`. -/
def textExtractionServiceDefs : List String :=
  ["_sanitize_text", "_strip_footer", "_sort_blocks",
   "_process_single_page_safe", "_process_single_page_wrapper",
   "_extract_text_sequentially", "_extract_text_from_pdf",
   "_extract_text_from_docx", "_extract_text_from_pptx",
   "_extract_text_from_image", "_extract_text_from_txt",
   "_extract_text_from_csv", "_extract_text_from_excel",
   "extract_text", "extract_text_from_file"]

/-- Result of `getattr(text_extraction_service, "extract_text_with_ocr", None)`
being non-None: whether the module defines such a function. -/
def ocrFallbackAvailable : Bool :=
  textExtractionServiceDefs.contains "extract_text_with_ocr"

/-- `_is_placeholder_text` of `document_processing_service.py`. -/
def isPlaceholderText (text : String) : Bool :=
  if (strContainsSub text "Biznesi:" || strContainsSub text "Klienti:")
      && strContainsSub text "| Kontabilisti AI System" then
    true
  else if pyStripLen text < 50 then
    true
  else
    false

/-- A MongoDB document record, with the fields touched by the pipeline.
`status` is the raw string stored in the collection.  Absent or null
fields are `none`. -/
structure DocRecord where
  docId : String
  ownerId : String
  caseId : String
  fileName : String
  mimeType : String
  storageKey : String
  status : String
  errorMessage : Option String := none
  fileHash : Option String := none
  processedTextKey : Option String := none
  processedTextStorageKey : Option String := none
  previewKey : Option String := none
  previewStorageKey : Option String := none
  detectedLanguage : Option String := none
  category : Option String := none
  metadata : List (String × Option String) := []
  summary : Option String := none
  deriving Repr, DecidableEq

/-- One embedding chunk held by the vector store; chunks live in the
per-user collection `user_(owner)` and carry `source_document_id`. -/
structure Chunk where
  ownerId : String
  sourceDocumentId : String
  caseId : String
  content : String
  deriving Repr, DecidableEq

/-- The stores the pipeline mutates: the `documents` collection, the
vector store, the deadline store, the graph store and the blob store
(set of object keys). -/
structure PipelineState where
  documents : List DocRecord
  vectors : List Chunk
  deadlineDocs : List String
  graphDocs : List String
  blobs : List String
  deriving Repr, DecidableEq

/-- Distinguishes `DocumentNotFoundInDBError` from every other exception,
mirroring the two except-clauses of `process_document_task`. -/
inductive PErr where
  | notFound (docId : String)
  | err (msg : String)
  deriving Repr, DecidableEq

/-- Environment of external collaborators: storage download, hashing,
extraction, LLM calls and the six enrichment jobs.  Each fallible call is
an `Except` value; `copyEmbedOk` tells whether `copy_document_embeddings`
raises.  The publish oracle is a separate argument of the stages. -/
structure Env where
  download : String → Except String String
  hashFn : String → String
  extractText : String → String → Except String String
  ocrText : String → String → Except String String
  sterilize : String → String
  detectAlbanian : String → Bool
  extractMeta : String → Except String (List (String × Option String))
  categorize : String → Except String String
  summaryRes : String → Except String String
  chunker : String → Except String (List String)
  embedStoreOk : Bool
  uploadTextKey : Except String String
  deadlinesRes : Except String Unit
  graphRes : Except String Unit
  convertPdf : Except String String
  uploadPreviewKey : Except String String
  copyEmbedOk : Bool

/-- Trace of the `_emit_progress_async` calls of one run: the attempted
publishes in order, the delivered ones (those whose Redis publish did not
raise; a raising publish is caught and has no other effect), and a
counter of attempts. -/
structure EmitLog where
  attempted : List (String × Nat)
  delivered : List (String × Nat)
  count : Nat
  deriving Repr, DecidableEq

/-- The empty emit trace. -/
def EmitLog.empty : EmitLog := { attempted := [], delivered := [], count := 0 }

/-- `_emit_progress_async`: the publish is attempted; `pub` says whether
the n-th publish attempt of the run goes through; an exception inside the
helper is swallowed (`except Exception: pass`), so failure only means the
event is not delivered. -/
def emitStep (pub : Nat → Bool) (log : EmitLog) (msg : String) (percent : Nat) : EmitLog :=
  { attempted := log.attempted ++ [(msg, percent)],
    delivered := log.delivered ++ (if pub log.count then [(msg, percent)] else []),
    count := log.count + 1 }

/-- Trace and outcome of one `orchestrate_document_processing_mongo` run:
the final state, the emit trace, whether the dedup branch committed,
whether the pipeline-level OCR fallback ran, how many times
`create_and_store_embeddings_from_chunks` was called, and the run
outcome. -/
structure RunOut where
  st : PipelineState
  log : EmitLog
  dedupHit : Bool
  ocrInvoked : Bool
  embedCreateCalls : Nat
  outcome : Except PErr Unit
  deriving Repr

/-- Everything a run returns except the emit trace: final state, dedup
flag, OCR flag, embedding-call count and outcome. -/
def RunOut.core (r : RunOut) :
    PipelineState × Bool × Bool × Nat × Except PErr Unit :=
  (r.st, r.dedupHit, r.ocrInvoked, r.embedCreateCalls, r.outcome)

/-- `db.documents.find_one` with an arbitrary predicate: first match in
natural order. -/
def findOneDoc (docs : List DocRecord) (p : DocRecord → Bool) : Option DocRecord :=
  docs.find? p

/-- `db.documents.update_one` by `_id` with a `$set` given as a record
transformer (ids are unique, so updating every match is update-one). -/
def updateDoc (docs : List DocRecord) (docId : String) (f : DocRecord → DocRecord) :
    List DocRecord :=
  docs.map fun d => if d.docId == docId then f d else d

/-- `delete_document_embeddings` of `vector_store_service.py`: removes
every chunk of the given user collection whose `source_document_id`
matches; its internal failures are swallowed and modelled as the
deletion working. -/
def deleteDocumentEmbeddings (vs : List Chunk) (userId docId : String) : List Chunk :=
  vs.filter fun c => ! (c.ownerId == userId && c.sourceDocumentId == docId)

/-- Chunks held for a given `source_document_id` across the store. -/
def chunksForDoc (vs : List Chunk) (docId : String) : List Chunk :=
  vs.filter fun c => c.sourceDocumentId == docId

/-- The success behavior of `copy_document_embeddings` of
`vector_store_service.py`: it reads the chunks of the source document out
of the target user collection and adds re-keyed copies for the target
document (nothing when there are none).  On any internal failure its
except clause logs and then re-raises (the final bare `raise`), which the
orchestrator catches to clear its `copy_success` flag;
`Env.copyEmbedOk` models whether the call raises. -/
def copyDocumentEmbeddings (vs : List Chunk)
    (srcDocId dstDocId dstUserId dstCaseId : String) : List Chunk :=
  let src := vs.filter fun c => c.ownerId == dstUserId && c.sourceDocumentId == srcDocId
  vs ++ src.map fun c =>
    { c with sourceDocumentId := dstDocId, caseId := dstCaseId, ownerId := dstUserId }

/-- Hex-digit test for ObjectId validity. -/
def isHexDigit (c : Char) : Bool :=
  c.isDigit || (('a' ≤ c && c ≤ 'f') || ('A' ≤ c && c ≤ 'F'))

/-- Validity of a 24-character hex ObjectId string, modelling
`ObjectId(document_id_str)` succeeding. -/
def isValidObjectId (s : String) : Bool :=
  s.data.length == 24 && s.data.all isHexDigit

/-- The `$set` of `finalize_document_processing`: status READY plus each
of the three optional keys, written only when truthy (non-empty).  The
`processed_timestamp` bookkeeping field is not modelled. -/
def finalizeTransform (processed_text_storage_key summary preview_storage_key : String)
    (d : DocRecord) : DocRecord :=
  let d1 := { d with status := "READY" }
  let d2 := if processed_text_storage_key ≠ "" then
      { d1 with processedTextStorageKey := some processed_text_storage_key } else d1
  let d3 := if summary ≠ "" then { d2 with summary := some summary } else d2
  if preview_storage_key ≠ "" then
    { d3 with previewStorageKey := some preview_storage_key } else d3

/-- `finalize_document_processing` of `document_service.py`.  The three
optional arguments are, in the positional order of the Python signature,
`processed_text_storage_key`, `summary` and `preview_storage_key`. -/
def finalize_document_processing (docs : List DocRecord) (docIdStr : String)
    (processed_text_storage_key : String) (summary : String)
    (preview_storage_key : String) : List DocRecord :=
  if isValidObjectId docIdStr then
    updateDoc docs docIdStr
      (finalizeTransform processed_text_storage_key summary preview_storage_key)
  else docs

/-- Python truthiness of an optional string value. -/
def truthy : Option String → Bool
  | none => false
  | some s => s ≠ ""

/-- Python `a or b` on optional strings: `a` when truthy, else `b`. -/
def pyOrOpt (a b : Option String) : Option String :=
  if truthy a then a else b

/-- Python dict assignment `m[k] = v`: replace the value when the key is
present, append otherwise. -/
def metaSetKey (m : List (String × Option String)) (k : String) (v : Option String) :
    List (String × Option String) :=
  if m.any (fun p => p.1 == k) then
    m.map fun p => if p.1 == k then (k, v) else p
  else m ++ [(k, v)]

/-- Python `dict.get`: `none` when the key is absent or its value is None. -/
def metaGet (m : List (String × Option String)) (k : String) : Option String :=
  match m.find? (fun p => p.1 == k) with
  | none => none
  | some p => p.2

/-- The accounting-to-infrastructure key mapping of the orchestrator: when
`case_number` is absent or falsy, it is set to
`document_number or fiscal_number`.  `_stringify_metadata` is the identity
on the scalar string values carried here. -/
def mapCaseNumber (m : List (String × Option String)) : List (String × Option String) :=
  let missing := match m.find? (fun p => p.1 == "case_number") with
    | none => true
    | some p => ! truthy p.2
  if missing then
    metaSetKey m "case_number" (pyOrOpt (metaGet m "document_number") (metaGet m "fiscal_number"))
  else m

/-- `detected_category`: the categorization call with its local
try/except defaulting to the catch-all category. -/
def categoryOf (env : Env) (sterilized : String) : String :=
  match env.categorize sterilized with
  | .ok c => c
  | .error _ => "Të tjera"

/-- The metadata commit `$set` performed before the fan-out:
`detected_language`, `category`, `metadata` and `file_hash`. -/
def metaCommitTransform (lang category : String)
    (meta : List (String × Option String)) (fileHash : String)
    (d : DocRecord) : DocRecord :=
  { d with detectedLanguage := some lang, category := some category,
           metadata := meta, fileHash := some fileHash }

/-- The dedup lookup filter: same `file_hash`, `case_id` and `owner_id`,
a present non-null `processed_text_key`, and a status other than
FAILED. -/
def dedupPred (document : DocRecord) (fileHash : String) (d : DocRecord) : Bool :=
  d.fileHash == some fileHash && d.caseId == document.caseId &&
  d.ownerId == document.ownerId && d.processedTextKey.isSome &&
  d.status != "FAILED"

/-- The `$set` of the dedup clone branch: the literal status string
PROCESSED plus the copied artifact references of the existing record. -/
def dedupTransform (existingDoc : DocRecord) (fileHash : String)
    (d : DocRecord) : DocRecord :=
  { d with status := "PROCESSED",
           processedTextKey := existingDoc.processedTextKey,
           previewKey := existingDoc.previewKey,
           fileHash := some fileHash,
           detectedLanguage := existingDoc.detectedLanguage,
           category := existingDoc.category,
           metadata := existingDoc.metadata,
           summary := existingDoc.summary }

/-- The message of `RuntimeError("Task i failed: res")` raised for the
first enrichment job whose gathered result is an exception. -/
def taskErrMsg (i : Nat) (msg : String) : String :=
  "Task " ++ toString i ++ " failed: " ++ msg

/-- Index and message of the first exception in the gathered results. -/
def firstErrorAux : Nat → List (Except String Unit) → Option (Nat × String)
  | _, [] => none
  | i, .ok _ :: rest => firstErrorAux (i + 1) rest
  | i, .error m :: _ => some (i, m)

/-- First exception of the gathered results, scanning from index 0. -/
def firstError (rs : List (Except String Unit)) : Option (Nat × String) :=
  firstErrorAux 0 rs

/-- The `$set` applied to the record by the failure handler: only
`status`, `error_message` and `file_hash` are written. -/
def failTransform (msg : String) (fileHash : Option String) (d : DocRecord) : DocRecord :=
  { d with status := "FAILED", errorMessage := some msg, fileHash := fileHash }

/-- The `except Exception` block of
`orchestrate_document_processing_mongo`: best-effort rollback of the
embeddings of this document (its own failures are swallowed), then a
single `$set` of `status=FAILED`, `error_message` and `file_hash` (null
when the hash was never computed). -/
def failurePath (st : PipelineState) (userId docIdStr : String)
    (fileHash : Option String) (msg : String) : PipelineState :=
  { st with vectors := deleteDocumentEmbeddings st.vectors userId docIdStr,
            documents := updateDoc st.documents docIdStr (failTransform msg fileHash) }

/-- Assembles the `RunOut` of a run ending in the failure handler. -/
def failedRun (st : PipelineState) (userId docIdStr : String)
    (fileHash : Option String) (msg : String) (log : EmitLog)
    (ocrInvoked : Bool) (embedCalls : Nat) : RunOut :=
  { st := failurePath st userId docIdStr fileHash msg, log := log,
    dedupHit := false, ocrInvoked := ocrInvoked, embedCreateCalls := embedCalls,
    outcome := .error (.err msg) }

/-- The parallel enrichment fan-out: six jobs are gathered with
`return_exceptions=True`, so every job runs to completion and commits its
own effects before the coordinator inspects the results; the first
exception (in job order: summary, embeddings, raw-text storage,
deadlines, graph, preview) triggers the failure handler, otherwise
`finalize_document_processing` commits.  Note the positional arguments of
the finalize call in the source: the summary value is passed in the
`processed_text_storage_key` position and the raw-text storage key in the
`summary` position.  The `processed_timestamp` bookkeeping field is not
modelled. -/
def embedTaskResult (env : Env) (rawText : String) : Except String Unit :=
  match env.chunker rawText with
  | .error e => .error e
  | .ok _ =>
    if env.embedStoreOk then .ok () else .error "Embedding creation failed."

/-- Number of `create_and_store_embeddings_from_chunks` calls the
embedding job performs (none when the chunking step already raised). -/
def embedTaskCalls (env : Env) (rawText : String) : Nat :=
  match env.chunker rawText with
  | .error _ => 0
  | .ok _ => 1

/-- Vector-store content after the embedding job: a delete of the
existing chunks of this document followed by the insert of the fresh
chunks (no insert when chunking raised or the store reported failure). -/
def embedTaskVectors (env : Env) (vsDel : List Chunk)
    (userId documentIdStr caseIdStr rawText : String) : List Chunk :=
  match env.chunker rawText with
  | .error _ => vsDel
  | .ok chunkTexts =>
    if env.embedStoreOk then
      vsDel ++ chunkTexts.map (fun c =>
        { ownerId := userId, sourceDocumentId := documentIdStr,
          caseId := caseIdStr, content := c })
    else vsDel

/-- `task_preview`: conversion to PDF then the preview upload; the first
raising step is the result of the job. -/
def previewJobResult (env : Env) : Except String String :=
  match env.convertPdf with
  | .error e => .error e
  | .ok _ => env.uploadPreviewKey

/-- The six gathered results in job order: summary, embeddings, raw-text
storage, deadlines, graph, preview. -/
def gatherResults (env : Env) (rawText sterilized : String) :
    List (Except String Unit) :=
  [(env.summaryRes sterilized).map (fun _ => ()),
   embedTaskResult env rawText,
   (env.uploadTextKey).map (fun _ => ()),
   env.deadlinesRes,
   env.graphRes,
   (previewJobResult env).map (fun _ => ())]

/-- The state after all six jobs have run (gather waits for all of them,
so every job commits its own effects whether or not a sibling failed). -/
def fanoutState (env : Env) (st1 : PipelineState)
    (documentIdStr userId caseIdStr rawText : String) : PipelineState :=
  let vsDel := deleteDocumentEmbeddings st1.vectors userId documentIdStr
  { st1 with
    vectors := embedTaskVectors env vsDel userId documentIdStr caseIdStr rawText,
    blobs := st1.blobs
      ++ (match env.uploadTextKey with | .ok k => [k] | .error _ => [])
      ++ (match previewJobResult env with | .ok k => [k] | .error _ => []),
    deadlineDocs := (match env.deadlinesRes with
      | .ok _ => st1.deadlineDocs ++ [documentIdStr]
      | .error _ => st1.deadlineDocs),
    graphDocs := (match env.graphRes with
      | .ok _ => st1.graphDocs ++ [documentIdStr]
      | .error _ => st1.graphDocs) }

def fanoutStage (env : Env) (pub : Nat → Bool) (st1 : PipelineState)
    (documentIdStr userId caseIdStr fileHash : String)
    (rawText sterilized : String) (log4 : EmitLog) (ocrInvoked : Bool) : RunOut :=
  let log5 := emitStep pub log4 "Përpunimi i inteligjencës..." 75
  let st2 := fanoutState env st1 documentIdStr userId caseIdStr rawText
  match firstError (gatherResults env rawText sterilized) with
  | some im =>
    failedRun st2 userId documentIdStr (some fileHash) (taskErrMsg im.fst im.snd)
      log5 ocrInvoked (embedTaskCalls env rawText)
  | none =>
    let finalSummary := match env.summaryRes sterilized with
      | .ok s => s
      | .error _ => ""
    let textKey := match env.uploadTextKey with | .ok k => k | .error _ => ""
    let previewStorageKey := match previewJobResult env with
      | .ok k => k
      | .error _ => ""
    let log6 := emitStep pub log5 "Përfunduar" 100
    let docs2 := finalize_document_processing st2.documents documentIdStr
      finalSummary textKey previewStorageKey
    { st := { st2 with documents := docs2 }, log := log6, dedupHit := false,
      ocrInvoked := ocrInvoked, embedCreateCalls := embedTaskCalls env rawText,
      outcome := .ok () }

/-- The pipeline state after the pre-fan-out metadata commit. -/
def metaCommittedState (env : Env) (st : PipelineState)
    (documentIdStr rawText fileHash : String)
    (meta0 : List (String × Option String)) : PipelineState :=
  { st with
    documents := updateDoc st.documents documentIdStr
      (metaCommitTransform
        (if env.detectAlbanian (env.sterilize rawText) then "sq" else "en")
        (categoryOf env (env.sterilize rawText)) (mapCaseNumber meta0) fileHash) }

/-- Emptiness and placeholder checks on the extracted text, then the
sterilize / language-detect / metadata-extract / categorize sequence and
the metadata commit (`detected_language`, `category`, `metadata`,
`file_hash` in one `$set`), then the fan-out. -/
def metaStage (env : Env) (pub : Nat → Bool) (st : PipelineState)
    (document : DocRecord) (documentIdStr fileHash rawText : String)
    (log2 : EmitLog) (ocrInvoked : Bool) : RunOut :=
  let userId := document.ownerId
  let caseIdStr := document.caseId
  if rawText.data.isEmpty || pyStripLen rawText == 0 then
    failedRun st userId documentIdStr (some fileHash)
      "Teksti i ekstraktuar është bosh." log2 ocrInvoked 0
  else if isPlaceholderText rawText then
    failedRun st userId documentIdStr (some fileHash)
      "Ekstraktimi i tekstit dështoi – u mor tekst i pavlefshëm." log2 ocrInvoked 0
  else
    let log3 := emitStep pub log2 "Analiza e strukturës..." 35
    let sterilized := env.sterilize rawText
    match env.extractMeta sterilized with
    | .error e =>
      failedRun st userId documentIdStr (some fileHash) e log3 ocrInvoked 0
    | .ok meta0 =>
      let st1 := metaCommittedState env st documentIdStr rawText fileHash meta0
      let log4 := emitStep pub log3 "Gjenerimi i analizës AI..." 50
      fanoutStage env pub st1 documentIdStr userId caseIdStr fileHash
        rawText sterilized log4 ocrInvoked

/-- Direct text extraction followed by the conditional OCR fallback: the
fallback fires only when the text is falsy or its stripped length is
below `OCR_FALLBACK_THRESHOLD`, and only when
`getattr(text_extraction_service, "extract_text_with_ocr", None)` is
non-None. -/
def extractStage (env : Env) (pub : Nat → Bool) (st : PipelineState)
    (document : DocRecord) (content documentIdStr fileHash : String)
    (log1 : EmitLog) : RunOut :=
  let userId := document.ownerId
  let log2 := emitStep pub log1 "Ekstraktimi i të dhënave..." 20
  match env.extractText content document.mimeType with
  | .error e => failedRun st userId documentIdStr (some fileHash) e log2 false 0
  | .ok rawText0 =>
    let lowSignal := rawText0.data.isEmpty || pyStripLen rawText0 < OCR_FALLBACK_THRESHOLD
    let ocrRun := lowSignal && ocrFallbackAvailable
    let log2a := if ocrRun then emitStep pub log2 "OCR në progres..." 25 else log2
    let rawTextE := if ocrRun then env.ocrText content document.mimeType else .ok rawText0
    match rawTextE with
    | .error e => failedRun st userId documentIdStr (some fileHash) e log2a ocrRun 0
    | .ok rawText =>
      metaStage env pub st document documentIdStr fileHash rawText log2a ocrRun

/-- `orchestrate_document_processing_mongo`: id parse, record lookup,
original download, hash, then the dedup lookup.  On a dedup hit the
clone is committed (with the literal status string PROCESSED;
`processing_time` is not modelled) only when `copy_document_embeddings`
did not raise (`copy_success`); when the copy raises, the exception is
caught, `copy_success` stays False and the run falls through to full
reprocessing — after having already emitted the percent-50 duplicate
event.  A dedup miss, or that fall-through, continues with the
extraction / metadata / fan-out stages. -/
def orchestrate (env : Env) (pub : Nat → Bool) (st : PipelineState)
    (documentIdStr : String) : RunOut :=
  if ! isValidObjectId documentIdStr then
    { st := st, log := EmitLog.empty, dedupHit := false, ocrInvoked := false,
      embedCreateCalls := 0, outcome := .ok () }
  else
    match findOneDoc st.documents (fun d => d.docId == documentIdStr) with
    | none =>
      { st := st, log := EmitLog.empty, dedupHit := false, ocrInvoked := false,
        embedCreateCalls := 0, outcome := .error (.notFound documentIdStr) }
    | some document =>
      let userId := document.ownerId
      let log0 := emitStep pub EmitLog.empty "Inicializimi..." 5
      match env.download document.storageKey with
      | .error e => failedRun st userId documentIdStr none e log0 false 0
      | .ok content =>
        let fileHash := env.hashFn content
        match findOneDoc st.documents (dedupPred document fileHash) with
        | some existingDoc =>
          let log1 := emitStep pub log0 "Dokument i dyfishuar – kopjohet..." 50
          if env.copyEmbedOk then
            let vs := copyDocumentEmbeddings st.vectors existingDoc.docId documentIdStr
              userId document.caseId
            let docs := updateDoc st.documents documentIdStr
              (dedupTransform existingDoc fileHash)
            let log2 := emitStep pub log1 "Përfunduar (kopjuar)" 100
            { st := { st with vectors := vs, documents := docs }, log := log2,
              dedupHit := true, ocrInvoked := false, embedCreateCalls := 0,
              outcome := .ok () }
          else
            extractStage env pub st document content documentIdStr fileHash log1
        | none =>
          extractStage env pub st document content documentIdStr fileHash log0

/-- Result of the queue-level task wrapper. -/
inductive TaskResult where
  | succeeded
  | abandoned (docId : String)
  | failed (msg : String)
  deriving Repr, DecidableEq

/-- `max_retries` of the `shared_task` decorator of
`process_document_task`. -/
def celeryMaxRetries : Nat := 5

/-- The `countdown` of `retry_kwargs` (also `default_retry_delay`): the
delay in seconds before the given retry, the same for every retry. -/
def celeryRetryCountdown (_retryIndex : Nat) : Nat := 10

/-- The delays, in seconds, of the successive retries the task would
perform before abandoning the job. -/
def celeryRetryDelays : List Nat :=
  (List.range celeryMaxRetries).map celeryRetryCountdown

/-- One execution of `process_document_task` plus its retry recursion:
on `DocumentNotFoundInDBError` the whole job is retried while retries
remain, and abandoned afterwards (the raise inside the first except
clause is not caught by the second, so no FAILED write happens); on any
other exception the wrapper writes `status=FAILED, error_message` to the
record before letting the task end; on success it publishes a READY SSE
event (best effort, no state effect).  `wrapperFailTransform` is the
`$set` of the wrapper's failure write: only `status` and
`error_message`. -/
def wrapperFailTransform (m : String) (d : DocRecord) : DocRecord :=
  { d with status := "FAILED", errorMessage := some m }

def processAttempts (env : Env) (pub : Nat → Bool) (documentIdStr : String) :
    Nat → PipelineState → PipelineState × TaskResult
  | 0, st => (st, .abandoned documentIdStr)
  | fuel + 1, st =>
    match (orchestrate env pub st documentIdStr).outcome with
    | .ok _ => ((orchestrate env pub st documentIdStr).st, .succeeded)
    | .error (.notFound d) =>
      if fuel == 0 then ((orchestrate env pub st documentIdStr).st, .abandoned d)
      else processAttempts env pub documentIdStr fuel
        (orchestrate env pub st documentIdStr).st
    | .error (.err m) =>
      ({ (orchestrate env pub st documentIdStr).st with
          documents := updateDoc (orchestrate env pub st documentIdStr).st.documents
            documentIdStr (wrapperFailTransform m) }, .failed m)

/-- `process_document_task`: the initial execution plus up to
`celeryMaxRetries` automatic retries. -/
def process_document_task (env : Env) (pub : Nat → Bool) (st : PipelineState)
    (documentIdStr : String) : PipelineState × TaskResult :=
  processAttempts env pub documentIdStr (celeryMaxRetries + 1) st

/-- A stored reference to a document id in a derived collection: the
native ObjectId form or its plain string form; the cascade matches both
(`mixed_id_query`). -/
inductive IdRef where
  | oid (s : String)
  | strForm (s : String)
  deriving Repr, DecidableEq

/-- The `$in [doc_id, doc_id_str]` match: a stored reference matches when
it is the native ObjectId of the document or its string form. -/
def refMatches (docId : String) : IdRef → Bool
  | .oid s => s == docId
  | .strForm s => s == docId

/-- A finding row: its own id and the document reference. -/
structure Finding where
  findingId : String
  documentId : IdRef
  deriving Repr, DecidableEq

/-- A calendar event or alert row; the back reference may sit in the
snake-case `document_id` field or the camel-case `documentId` field. -/
structure LinkedRow where
  rowId : String
  docIdSnake : Option IdRef
  docIdCamel : Option IdRef
  deriving Repr, DecidableEq

/-- The `link_query` of `delete_document_by_id`: an `$or` of the
mixed-representation match on both field spellings. -/
def linkMatches (docId : String) (row : LinkedRow) : Bool :=
  (match row.docIdSnake with | some r => refMatches docId r | none => false)
  || (match row.docIdCamel with | some r => refMatches docId r | none => false)

/-- The stores touched by the cascading delete. -/
structure DeleteState where
  documents : List DocRecord
  findings : List Finding
  calendarEvents : List LinkedRow
  alerts : List LinkedRow
  alertsCollectionExists : Bool
  graphDocs : List String
  vectors : List Chunk
  blobs : List String
  deriving Repr, DecidableEq

/-- Failure oracle for the delete cascade: whether each subsystem call
completes without raising. -/
structure DeleteEnv where
  findingsFindOk : Bool
  findingsDeleteOk : Bool
  eventsDeleteOk : Bool
  alertsDeleteOk : Bool
  graphOk : Bool
  vectorOk : Bool
  blobOk : String → Bool

/-- One completed deletion step of the cascade, in execution order. -/
inductive DeleteAction where
  | findings
  | events
  | alerts
  | graph
  | vectors
  | blob (key : String)
  | record
  deriving Repr, DecidableEq

/-- The three S3 deletes share one try/except: keys are deleted in order
and the first raising key aborts the remaining ones. -/
def deleteBlobsSeq (ok : String → Bool) (blobs : List String) :
    List String → List String × List DeleteAction
  | [] => (blobs, [])
  | k :: rest =>
    if ok k then
      let r := deleteBlobsSeq ok (blobs.filter fun b => b != k) rest
      (r.fst, .blob k :: r.snd)
    else (blobs, [])

/-- `delete_document_by_id` of `document_service.py`: ownership check
first (404 and no effect when the record is absent or owned by someone
else), then findings, calendar events plus alerts (one shared try),
graph nodes, vector embeddings and blobs, each step in its own
try/except, and the DocumentRecord deleted last, unconditionally.
Returns the ids of the findings that matched the mixed query, plus the
trace of completed deletion steps. -/
def delete_document_by_id (denv : DeleteEnv) (st : DeleteState)
    (docId ownerId : String) :
    DeleteState × Except String (List String) × List DeleteAction :=
  match st.documents.find? (fun d => d.docId == docId && d.ownerId == ownerId) with
  | none => (st, .error "Document not found.", [])
  | some record =>
    let storageKey := record.storageKey
    let processedKey := record.processedTextStorageKey
    let previewKey := record.previewStorageKey
    let foundIds := if denv.findingsFindOk then
        (st.findings.filter fun f => refMatches docId f.documentId).map (·.findingId)
      else []
    let findings1 :=
      if denv.findingsFindOk && denv.findingsDeleteOk then
        st.findings.filter fun f => ! refMatches docId f.documentId
      else st.findings
    let tr1 : List DeleteAction :=
      if denv.findingsFindOk && denv.findingsDeleteOk then [.findings] else []
    let events1 :=
      if denv.eventsDeleteOk then
        st.calendarEvents.filter fun r => ! linkMatches docId r
      else st.calendarEvents
    let tr2a : List DeleteAction := if denv.eventsDeleteOk then [.events] else []
    let alertsRun := denv.eventsDeleteOk && st.alertsCollectionExists && denv.alertsDeleteOk
    let alerts1 :=
      if alertsRun then st.alerts.filter fun r => ! linkMatches docId r
      else st.alerts
    let tr2b : List DeleteAction := if alertsRun then [.alerts] else []
    let graph1 :=
      if denv.graphOk then st.graphDocs.filter (fun g => g != docId)
      else st.graphDocs
    let tr3 : List DeleteAction := if denv.graphOk then [.graph] else []
    let vectors1 :=
      if denv.vectorOk then deleteDocumentEmbeddings st.vectors ownerId docId
      else st.vectors
    let tr4 : List DeleteAction := if denv.vectorOk then [.vectors] else []
    let keys := (if storageKey != "" then [storageKey] else [])
      ++ (match processedKey with
          | some k => if k != "" then [k] else []
          | none => [])
      ++ (match previewKey with
          | some k => if k != "" then [k] else []
          | none => [])
    let blobRes := deleteBlobsSeq denv.blobOk st.blobs keys
    let docs1 := st.documents.filter fun d => d.docId != docId
    ({ documents := docs1, findings := findings1, calendarEvents := events1,
       alerts := alerts1, alertsCollectionExists := st.alertsCollectionExists,
       graphDocs := graph1, vectors := vectors1, blobs := blobRes.fst },
     .ok foundIds,
     tr1 ++ tr2a ++ tr2b ++ tr3 ++ tr4 ++ blobRes.snd ++ [.record])

/-! Concrete fixtures used to exercise the model on closed inputs. -/

/-- A 120-character extracted text: above the OCR threshold and not a
placeholder. -/
def sampleText : String := ⟨List.replicate 120 'a'⟩

/-- A 60-character extracted text: below the OCR threshold of 100 but
above the 50-character placeholder cutoff. -/
def shortText : String := ⟨List.replicate 60 'a'⟩

/-- A valid 24-hex-character ObjectId string. -/
def idA : String := "aaaaaaaaaaaaaaaaaaaaaaaa"

/-- A second valid ObjectId string. -/
def idB : String := "bbbbbbbbbbbbbbbbbbbbbbbb"

/-- A third valid ObjectId string. -/
def idC : String := "cccccccccccccccccccccccc"

/-- An environment in which every external collaborator succeeds. -/
def envAllOk : Env := {
  download := fun _ => .ok "FILE-CONTENT",
  hashFn := fun s => "hash-" ++ s,
  extractText := fun _ _ => .ok sampleText,
  ocrText := fun _ _ => .ok "ocr text",
  sterilize := fun t => t,
  detectAlbanian := fun _ => true,
  extractMeta := fun _ => .ok [("document_number", some "DN-1")],
  categorize := fun _ => .ok "Fatura",
  summaryRes := fun _ => .ok "SUMMARY-TEXT",
  chunker := fun t => .ok [t],
  embedStoreOk := true,
  uploadTextKey := .ok "T1",
  deadlinesRes := .ok (),
  graphRes := .ok (),
  convertPdf := .ok "tmp.pdf",
  uploadPreviewKey := .ok "P1",
  copyEmbedOk := true }

/-- Like `envAllOk` but the graph-ingestion job raises. -/
def envGraphFail : Env := { envAllOk with graphRes := .error "neo down" }

/-- Like `envAllOk` but direct extraction returns the short text. -/
def envShortText : Env := { envAllOk with extractText := fun _ _ => .ok shortText }

/-- Like `envAllOk` but `copy_document_embeddings` raises. -/
def envCopyFail : Env := { envAllOk with copyEmbedOk := false }

/-- Every publish attempt succeeds. -/
def pubAll : Nat → Bool := fun _ => true

/-- A freshly created PENDING record. -/
def docA : DocRecord := {
  docId := idA, ownerId := "U", caseId := "S", fileName := "f.pdf",
  mimeType := "application/pdf", storageKey := "orig-1", status := "PENDING" }

/-- A second PENDING record of the same owner and case, holding a copy of
the same bytes under another storage key. -/
def docB : DocRecord := { docA with docId := idB, storageKey := "orig-2" }

/-- A record carrying a non-null `processed_text_key`, as only the dedup
branch itself ever writes; used to drive the dedup-hit branch. -/
def legacyDoc : DocRecord := { docA with
  docId := idC, status := "READY",
  fileHash := some "hash-FILE-CONTENT", processedTextKey := some "T-old",
  previewKey := some "P-old", summary := some "OLD-SUM" }

/-- Initial state holding only the fresh record `docA`. -/
def stA : PipelineState := {
  documents := [docA], vectors := [], deadlineDocs := [], graphDocs := [],
  blobs := [] }

/-- The full-success run on `docA`. -/
def runA : RunOut := orchestrate envAllOk pubAll stA idA

/-- The state after `runA` with the second identical upload `docB`
created PENDING. -/
def stAB : PipelineState := { runA.st with documents := runA.st.documents ++ [docB] }

/-- The run of the second identical upload. -/
def runB : RunOut := orchestrate envAllOk pubAll stAB idB

/-- Initial state for the dedup-hit branch: the legacy record plus the
fresh `docB`. -/
def stDedup : PipelineState := {
  documents := [legacyDoc, docB], vectors := [], deadlineDocs := [],
  graphDocs := [], blobs := [] }

/-- The dedup-hit run on `docB`. -/
def runDedup : RunOut := orchestrate envAllOk pubAll stDedup idB

/-- The dedup-hit run on `docB` in which `copy_document_embeddings`
raises, so the run falls through to full processing after the percent-50
duplicate event. -/
def runDedupCopyFail : RunOut := orchestrate envCopyFail pubAll stDedup idB

/-- The run on `docA` in which the graph job raises. -/
def runGraphFail : RunOut := orchestrate envGraphFail pubAll stA idA

/-- The run on `docA` whose direct extraction yields only 60
characters. -/
def runShort : RunOut := orchestrate envShortText pubAll stA idA

/-! Fixtures for the cascading delete. -/

/-- A delete environment in which every subsystem call succeeds. -/
def denvAllOk : DeleteEnv := {
  findingsFindOk := true, findingsDeleteOk := true, eventsDeleteOk := true,
  alertsDeleteOk := true, graphOk := true, vectorOk := true,
  blobOk := fun _ => true }

/-- A delete environment in which the graph cleanup raises. -/
def denvGraphFail : DeleteEnv := { denvAllOk with graphOk := false }

/-- A record with derived artifacts, owned by user U. -/
def docD : DocRecord := { docA with
  docId := idC, status := "READY",
  processedTextStorageKey := some "proc-key", previewStorageKey := some "prev-key" }

/-- Delete-side state: the record, two findings referencing it under the
two id representations, a calendar event under the camel-case field, an
alert, one referencing row of an unrelated document, graph nodes, chunks
and blobs. -/
def stDel : DeleteState := {
  documents := [docD],
  findings := [
    { findingId := "f1", documentId := .oid idC },
    { findingId := "f2", documentId := .strForm idC },
    { findingId := "f3", documentId := .oid idA }],
  calendarEvents := [
    { rowId := "e1", docIdSnake := some (.oid idC), docIdCamel := none },
    { rowId := "e2", docIdSnake := none, docIdCamel := some (.strForm idC) },
    { rowId := "e3", docIdSnake := some (.strForm idA), docIdCamel := none }],
  alerts := [{ rowId := "a1", docIdSnake := none, docIdCamel := some (.oid idC) }],
  alertsCollectionExists := true,
  graphDocs := [idC, idA],
  vectors := [{ ownerId := "U", sourceDocumentId := idC, caseId := "S", content := "x" }],
  blobs := ["orig-1", "proc-key", "prev-key", "other-blob"] }

/-- The percent components of the attempted progress events. -/
def percentsOf (log : EmitLog) : List Nat := log.attempted.map Prod.snd

/-! Helper lemmas. -/

@[simp] theorem failTransform_docId (m : String) (h : Option String) (d : DocRecord) :
    (failTransform m h d).docId = d.docId := rfl

@[simp] theorem metaCommitTransform_docId (l c : String)
    (meta : List (String × Option String)) (fh : String) (d : DocRecord) :
    (metaCommitTransform l c meta fh d).docId = d.docId := rfl

@[simp] theorem dedupTransform_docId (e : DocRecord) (fh : String) (d : DocRecord) :
    (dedupTransform e fh d).docId = d.docId := rfl

@[simp] theorem finalizeTransform_docId (a b c : String) (d : DocRecord) :
    (finalizeTransform a b c d).docId = d.docId := by
  unfold finalizeTransform
  repeat' split
  all_goals rfl

/-- `update_one` by id commutes with `find_one` by the same id when the
update does not touch the id. -/
theorem find?_updateDoc (docs : List DocRecord) (docId : String)
    (f : DocRecord → DocRecord) (hf : ∀ d, (f d).docId = d.docId) :
    (updateDoc docs docId f).find? (fun x => x.docId == docId)
      = (docs.find? (fun x => x.docId == docId)).map f := by
  unfold updateDoc
  rw [List.find?_map]
  have hcong : ((fun x => x.docId == docId) ∘ fun d => if d.docId == docId then f d else d)
      = fun x => x.docId == docId := by
    funext d
    by_cases h : d.docId = docId
    · simp [h, hf]
    · simp [h]
  rw [hcong]
  cases hfind : docs.find? (fun x => x.docId == docId) with
  | none => rfl
  | some e =>
    have he := List.find?_some hfind
    simp only [beq_iff_eq] at he
    simp [he]

/-- Deleting a document's chunks in a user collection leaves, among the
chunks of that document, exactly those held by other user collections. -/
theorem chunksForDoc_delete_eq (vs : List Chunk) (u dId : String) :
    chunksForDoc (deleteDocumentEmbeddings vs u dId) dId
      = (chunksForDoc vs dId).filter (fun c => ! (c.ownerId == u)) := by
  unfold chunksForDoc deleteDocumentEmbeddings
  simp only [List.filter_filter]
  apply List.filter_congr
  intro c _
  by_cases h1 : c.sourceDocumentId = dId
  · by_cases h2 : c.ownerId = u
    · simp [h1, h2]
    · simp [h1, h2]
  · have hb : (c.sourceDocumentId == dId) = false := beq_eq_false_iff_ne.mpr h1
    simp [hb]

@[simp] theorem chunksForDoc_append (a b : List Chunk) (dId : String) :
    chunksForDoc (a ++ b) dId = chunksForDoc a dId ++ chunksForDoc b dId := by
  simp [chunksForDoc, List.filter_append]

/-- The module list of `text_extraction_service.py` holds no
`extract_text_with_ocr`, so the orchestrator's `getattr` yields None. -/
theorem ocrFallbackAvailable_eq : ocrFallbackAvailable = false := rfl

/-- `finalize_document_processing` always sets status READY. -/
theorem finalizeTransform_status (a b c : String) (d : DocRecord) :
    (finalizeTransform a b c d).status = "READY" := by
  unfold finalizeTransform
  repeat' split
  all_goals rfl

/-- The dedup clone always sets the literal status string PROCESSED. -/
theorem dedupTransform_status (e : DocRecord) (fh : String) (d : DocRecord) :
    (dedupTransform e fh d).status = "PROCESSED" := rfl

/-! The non-log outputs of a run do not depend on the publish oracle. -/

theorem fanout_core (env : Env) (pub pub' : Nat → Bool) (st1 : PipelineState)
    (a b c f rt sz : String) (log log' : EmitLog) (o : Bool) :
    (fanoutStage env pub st1 a b c f rt sz log o).core
      = (fanoutStage env pub' st1 a b c f rt sz log' o).core := by
  cases hc : firstError (gatherResults env rt sz) with
  | none => simp only [fanoutStage, hc, RunOut.core]
  | some im => simp only [fanoutStage, hc, RunOut.core, failedRun]

theorem meta_core (env : Env) (pub pub' : Nat → Bool) (st : PipelineState)
    (document : DocRecord) (dId fh rt : String) (log log' : EmitLog) (o : Bool) :
    (metaStage env pub st document dId fh rt log o).core
      = (metaStage env pub' st document dId fh rt log' o).core := by
  unfold metaStage
  by_cases h1 : (rt.data.isEmpty || pyStripLen rt == 0) = true
  · simp only [h1]; rfl
  · simp only [h1]
    by_cases h2 : isPlaceholderText rt = true
    · simp only [h2]; rfl
    · simp only [h2]
      cases hm : env.extractMeta (env.sterilize rt) with
      | error e => simp only [hm]; rfl
      | ok m0 => simp only [hm]; exact fanout_core ..

theorem extract_core (env : Env) (pub pub' : Nat → Bool) (st : PipelineState)
    (document : DocRecord) (content dId fh : String) (log log' : EmitLog) :
    (extractStage env pub st document content dId fh log).core
      = (extractStage env pub' st document content dId fh log').core := by
  unfold extractStage
  cases he : env.extractText content document.mimeType with
  | error e => simp only [he, RunOut.core, failedRun]
  | ok rt0 =>
    simp only [he, ocrFallbackAvailable_eq, Bool.and_false, Bool.false_eq_true, if_false]
    exact meta_core ..

theorem orch_core (env : Env) (pub pub' : Nat → Bool) (st : PipelineState)
    (d : String) :
    (orchestrate env pub st d).core = (orchestrate env pub' st d).core := by
  unfold orchestrate
  by_cases hv : isValidObjectId d
  · simp only [hv]
    cases hf : findOneDoc st.documents (fun x => x.docId == d) with
    | none => rfl
    | some document =>
      simp only [hf]
      cases hd : env.download document.storageKey with
      | error e => simp only [hd]; rfl
      | ok content =>
        simp only [hd]
        cases hdd : findOneDoc st.documents (dedupPred document (env.hashFn content)) with
        | none => simp only [hdd]; exact extract_core ..
        | some ex =>
          simp only [hdd]
          by_cases hcp : env.copyEmbedOk
          · rw [if_pos hcp, if_pos hcp]
            rfl
          · rw [if_neg hcp, if_neg hcp]
            exact extract_core ..
  · simp only [hv]; rfl

theorem orch_st_pub (env : Env) (pub pub' : Nat → Bool) (st : PipelineState) (d : String) :
    (orchestrate env pub st d).st = (orchestrate env pub' st d).st :=
  congrArg Prod.fst (orch_core env pub pub' st d)

theorem orch_outcome_pub (env : Env) (pub pub' : Nat → Bool) (st : PipelineState) (d : String) :
    (orchestrate env pub st d).outcome = (orchestrate env pub' st d).outcome :=
  congrArg (fun t => t.snd.snd.snd.snd) (orch_core env pub pub' st d)

theorem attempts_pub (env : Env) (pub pub' : Nat → Bool) (d : String) :
    ∀ fuel st, processAttempts env pub d fuel st = processAttempts env pub' d fuel st := by
  intro fuel
  induction fuel with
  | zero => intro st; rfl
  | succ n ih =>
    intro st
    unfold processAttempts
    rw [← orch_outcome_pub env pub pub' st d, ← orch_st_pub env pub pub' st d]
    cases ho : (orchestrate env pub st d).outcome with
    | ok u => rfl
    | error pe =>
      cases pe with
      | notFound s =>
        by_cases hn : (n == 0) = true
        · simp [hn]
        · simp [hn, ih]
      | err m => rfl

/-! The pipeline-level OCR fallback never runs. -/

theorem fanout_ocr (env : Env) (pub : Nat → Bool) (st1 : PipelineState)
    (a b c f rt sz : String) (log : EmitLog) (o : Bool) :
    (fanoutStage env pub st1 a b c f rt sz log o).ocrInvoked = o := by
  cases hc : firstError (gatherResults env rt sz) <;>
    simp only [fanoutStage, hc, failedRun]

theorem meta_ocr (env : Env) (pub : Nat → Bool) (st : PipelineState)
    (document : DocRecord) (dId fh rt : String) (log : EmitLog) (o : Bool) :
    (metaStage env pub st document dId fh rt log o).ocrInvoked = o := by
  unfold metaStage
  by_cases h1 : (rt.data.isEmpty || pyStripLen rt == 0) = true
  · simp [h1, failedRun]
  · simp only [h1]
    by_cases h2 : isPlaceholderText rt = true
    · simp [h2, failedRun]
    · simp only [h2]
      cases hm : env.extractMeta (env.sterilize rt) with
      | error e => simp [hm, failedRun]
      | ok m0 =>
        simp only [hm]
        rw [if_neg (by simp [h1]), if_neg (by simp [h2])]
        exact fanout_ocr ..

theorem extract_ocr (env : Env) (pub : Nat → Bool) (st : PipelineState)
    (document : DocRecord) (content dId fh : String) (log : EmitLog) :
    (extractStage env pub st document content dId fh log).ocrInvoked = false := by
  unfold extractStage
  cases he : env.extractText content document.mimeType with
  | error e => simp only [he, failedRun]
  | ok rt0 =>
    simp only [he, ocrFallbackAvailable_eq, Bool.and_false]
    exact meta_ocr ..

theorem orch_ocr (env : Env) (pub : Nat → Bool) (st : PipelineState) (d : String) :
    (orchestrate env pub st d).ocrInvoked = false := by
  unfold orchestrate
  by_cases hv : isValidObjectId d
  · simp only [hv]
    cases hf : findOneDoc st.documents (fun x => x.docId == d) with
    | none => rfl
    | some document =>
      simp only [hf]
      cases hd : env.download document.storageKey with
      | error e => simp only [hd]; rfl
      | ok content =>
        simp only [hd]
        cases hdd : findOneDoc st.documents (dedupPred document (env.hashFn content)) with
        | none => simp only [hdd]; exact extract_ocr ..
        | some ex =>
          simp only [hdd]
          by_cases hcp : env.copyEmbedOk
          · rw [if_pos hcp]
            rfl
          · rw [if_neg hcp]
            exact extract_ocr ..
  · simp only [hv]; rfl

/-! Status values written on the success paths. -/

theorem fanout_ok_status (env : Env) (pub : Nat → Bool) (st1 : PipelineState)
    (dId ui ci fh rt sz : String) (log : EmitLog) (o : Bool)
    (hok : (fanoutStage env pub st1 dId ui ci fh rt sz log o).outcome = .ok ())
    (hv : isValidObjectId dId = true) :
    ∀ rec, ((fanoutStage env pub st1 dId ui ci fh rt sz log o).st.documents.find?
        (fun x => x.docId == dId)) = some rec →
      rec.status = "READY" := by
  cases hc : firstError (gatherResults env rt sz) with
  | some im => simp [fanoutStage, hc, failedRun] at hok
  | none =>
    intro rec hrec
    simp only [fanoutStage, hc] at hrec
    rw [show (fanoutState env st1 dId ui ci rt).documents = st1.documents from rfl] at hrec
    unfold finalize_document_processing at hrec
    rw [if_pos hv] at hrec
    rw [find?_updateDoc _ _ _ (fun d => finalizeTransform_docId _ _ _ d)] at hrec
    cases hbase : st1.documents.find? (fun x => x.docId == dId) with
    | none => rw [hbase] at hrec; simp at hrec
    | some base =>
      rw [hbase] at hrec
      simp only [Option.map_some'] at hrec
      cases hrec
      exact finalizeTransform_status ..

theorem meta_ok_status (env : Env) (pub : Nat → Bool) (st : PipelineState)
    (document : DocRecord) (dId fh rt : String) (log : EmitLog) (o : Bool)
    (hok : (metaStage env pub st document dId fh rt log o).outcome = .ok ())
    (hv : isValidObjectId dId = true) :
    ∀ rec, ((metaStage env pub st document dId fh rt log o).st.documents.find?
        (fun x => x.docId == dId)) = some rec →
      rec.status = "READY" := by
  unfold metaStage at *
  by_cases h1 : (rt.data.isEmpty || pyStripLen rt == 0) = true
  · simp [h1, failedRun] at hok
  · simp only [h1] at hok ⊢
    by_cases h2 : isPlaceholderText rt = true
    · simp [h1, h2, failedRun] at hok
    · simp only [h2] at hok ⊢
      cases hm : env.extractMeta (env.sterilize rt) with
      | error e => simp [h1, h2, hm, failedRun] at hok
      | ok m0 =>
        simp only [hm] at hok ⊢
        rw [if_neg (by simp [h1]), if_neg (by simp [h2])] at hok ⊢
        exact fanout_ok_status _ _ _ _ _ _ _ _ _ _ _ hok hv

theorem extract_ok_status (env : Env) (pub : Nat → Bool) (st : PipelineState)
    (document : DocRecord) (content dId fh : String) (log : EmitLog)
    (hok : (extractStage env pub st document content dId fh log).outcome = .ok ())
    (hv : isValidObjectId dId = true) :
    ∀ rec, ((extractStage env pub st document content dId fh log).st.documents.find?
        (fun x => x.docId == dId)) = some rec →
      rec.status = "READY" := by
  unfold extractStage at *
  cases he : env.extractText content document.mimeType with
  | error e => simp [he, failedRun] at hok
  | ok rt0 =>
    simp only [he, ocrFallbackAvailable_eq, Bool.and_false, Bool.false_eq_true,
      if_false] at hok ⊢
    exact meta_ok_status _ _ _ _ _ _ _ _ _ hok hv

theorem orch_ok_status (env : Env) (pub : Nat → Bool) (st : PipelineState) (d : String)
    (hv : isValidObjectId d = true)
    (hok : (orchestrate env pub st d).outcome = .ok ()) :
    ∀ rec, ((orchestrate env pub st d).st.documents.find? (fun x => x.docId == d)) = some rec →
      rec.status = "READY" ∨ rec.status = "PROCESSED" := by
  unfold orchestrate at *
  simp only [hv, Bool.not_true, Bool.false_eq_true, if_false] at hok ⊢
  cases hf : findOneDoc st.documents (fun x => x.docId == d) with
  | none => simp [hf] at hok
  | some document =>
    simp only [hf] at hok ⊢
    cases hd : env.download document.storageKey with
    | error e => simp [hd, failedRun] at hok
    | ok content =>
      simp only [hd] at hok ⊢
      cases hdd : findOneDoc st.documents (dedupPred document (env.hashFn content)) with
      | some ex =>
        simp only [hdd] at hok ⊢
        by_cases hcp : env.copyEmbedOk
        · rw [if_pos hcp] at hok ⊢
          intro rec hrec
          rw [find?_updateDoc _ _ _ (fun x => dedupTransform_docId _ _ x)] at hrec
          cases hbase : st.documents.find? (fun x => x.docId == d) with
          | none => rw [hbase] at hrec; simp at hrec
          | some base =>
            rw [hbase] at hrec
            simp only [Option.map_some'] at hrec
            cases hrec
            right
            exact dedupTransform_status ..
        · rw [if_neg hcp] at hok ⊢
          intro rec hrec
          left
          exact extract_ok_status _ _ _ _ _ _ _ _ hok hv rec hrec
      | none =>
        simp only [hdd] at hok ⊢
        intro rec hrec
        left
        exact extract_ok_status _ _ _ _ _ _ _ _ hok hv rec hrec

/-! The DocumentNotFound outcome arises only before any state change. -/

theorem fanout_no_nf (env : Env) (pub : Nat → Bool) (st1 : PipelineState)
    (a b c f rt sz : String) (log : EmitLog) (o : Bool) (s : String) :
    (fanoutStage env pub st1 a b c f rt sz log o).outcome ≠ .error (.notFound s) := by
  cases hc : firstError (gatherResults env rt sz) <;>
    simp [fanoutStage, hc, failedRun]

theorem meta_no_nf (env : Env) (pub : Nat → Bool) (st : PipelineState)
    (document : DocRecord) (dId fh rt : String) (log : EmitLog) (o : Bool) (s : String) :
    (metaStage env pub st document dId fh rt log o).outcome ≠ .error (.notFound s) := by
  unfold metaStage
  by_cases h1 : (rt.data.isEmpty || pyStripLen rt == 0) = true
  · simp [h1, failedRun]
  · simp only [h1]
    by_cases h2 : isPlaceholderText rt = true
    · simp [h2, failedRun]
    · simp only [h2]
      cases hm : env.extractMeta (env.sterilize rt) with
      | error e => simp [hm, failedRun]
      | ok m0 =>
        simp only [hm]
        rw [if_neg (by simp [h1]), if_neg (by simp [h2])]
        apply fanout_no_nf

theorem extract_no_nf (env : Env) (pub : Nat → Bool) (st : PipelineState)
    (document : DocRecord) (content dId fh : String) (log : EmitLog) (s : String) :
    (extractStage env pub st document content dId fh log).outcome ≠ .error (.notFound s) := by
  unfold extractStage
  cases he : env.extractText content document.mimeType with
  | error e => simp [he, failedRun]
  | ok rt0 =>
    simp only [he, ocrFallbackAvailable_eq, Bool.and_false, Bool.false_eq_true, if_false]
    apply meta_no_nf

theorem orch_nf_st (env : Env) (pub : Nat → Bool) (st : PipelineState) (d s : String)
    (h : (orchestrate env pub st d).outcome = .error (.notFound s)) :
    (orchestrate env pub st d).st = st := by
  unfold orchestrate at *
  by_cases hv : isValidObjectId d
  · simp only [hv, Bool.not_true, Bool.false_eq_true, if_false] at h ⊢
    cases hf : findOneDoc st.documents (fun x => x.docId == d) with
    | none => simp only [hf]
    | some document =>
      simp only [hf] at h ⊢
      cases hd : env.download document.storageKey with
      | error e => simp [hd, failedRun] at h
      | ok content =>
        simp only [hd] at h ⊢
        cases hdd : findOneDoc st.documents (dedupPred document (env.hashFn content)) with
        | some ex =>
          simp only [hdd] at h
          by_cases hcp : env.copyEmbedOk
          · rw [if_pos hcp] at h
            simp at h
          · rw [if_neg hcp] at h
            exact absurd h (extract_no_nf env pub st document content d (env.hashFn content) _ s)
        | none =>
          simp only [hdd] at h
          exact absurd h (extract_no_nf env pub st document content d (env.hashFn content) _ s)
  · simp [hv] at h

/-! Behavior of the retry wrapper. -/

theorem attempts_succ_ok (env : Env) (pub : Nat → Bool) (d : String)
    (st : PipelineState) (fuel : Nat)
    (h : (orchestrate env pub st d).outcome = .ok ()) :
    processAttempts env pub d (fuel + 1) st
      = ((orchestrate env pub st d).st, .succeeded) := by
  unfold processAttempts
  rw [h]

theorem attempts_succ_err (env : Env) (pub : Nat → Bool) (d : String)
    (st : PipelineState) (fuel : Nat) (m : String)
    (h : (orchestrate env pub st d).outcome = .error (.err m)) :
    processAttempts env pub d (fuel + 1) st
      = ({ (orchestrate env pub st d).st with
            documents := updateDoc (orchestrate env pub st d).st.documents d
              (wrapperFailTransform m) }, .failed m) := by
  unfold processAttempts
  rw [h]

theorem attempts_nf (env : Env) (pub : Nat → Bool) (d s : String) (st : PipelineState)
    (h : (orchestrate env pub st d).outcome = .error (.notFound s)) :
    ∀ fuel, processAttempts env pub d (fuel + 1) st = (st, .abandoned s) := by
  have hst := orch_nf_st env pub st d s h
  intro fuel
  induction fuel with
  | zero =>
    unfold processAttempts
    rw [h, hst]
    simp
  | succ n ih =>
    unfold processAttempts
    rw [h, hst]
    simpa using ih

theorem orch_lookup_nf (env : Env) (pub : Nat → Bool) (st : PipelineState) (d : String)
    (hv : isValidObjectId d = true)
    (hn : findOneDoc st.documents (fun x => x.docId == d) = none) :
    orchestrate env pub st d
      = { st := st, log := EmitLog.empty, dedupHit := false, ocrInvoked := false,
          embedCreateCalls := 0, outcome := .error (.notFound d) } := by
  unfold orchestrate
  simp only [hv, Bool.not_true, Bool.false_eq_true, if_false, hn]

/-- Under the hypotheses that the run passes id parse, record lookup,
download, the dedup miss, extraction and metadata extraction, the whole
run is the fan-out applied to the metadata-committed state. -/
theorem orch_fanout_reach (env : Env) (pub : Nat → Bool) (st : PipelineState)
    (d : String) (document : DocRecord) (content rawText : String)
    (meta0 : List (String × Option String))
    (hv : isValidObjectId d = true)
    (hf : findOneDoc st.documents (fun x => x.docId == d) = some document)
    (hd : env.download document.storageKey = .ok content)
    (hdd : findOneDoc st.documents (dedupPred document (env.hashFn content)) = none)
    (he : env.extractText content document.mimeType = .ok rawText)
    (hne : (rawText.data.isEmpty || pyStripLen rawText == 0) = false)
    (hpl : isPlaceholderText rawText = false)
    (hm : env.extractMeta (env.sterilize rawText) = .ok meta0) :
    orchestrate env pub st d
      = fanoutStage env pub
          (metaCommittedState env st d rawText (env.hashFn content) meta0)
          d document.ownerId document.caseId (env.hashFn content) rawText
          (env.sterilize rawText)
          (emitStep pub (emitStep pub (emitStep pub (emitStep pub EmitLog.empty
            "Inicializimi..." 5) "Ekstraktimi i të dhënave..." 20)
            "Analiza e strukturës..." 35) "Gjenerimi i analizës AI..." 50) false := by
  unfold orchestrate extractStage metaStage
  simp only [hv, Bool.not_true, Bool.false_eq_true, if_false, hf, hd, hdd, he,
    ocrFallbackAvailable_eq, Bool.and_false, hne, hpl, hm]

/-- After the failure handler's rollback delete, no chunks of the
document remain, provided none were present before the run (the run
itself only adds chunks owned by the processing user). -/
theorem chunksForDoc_after_rollback (env : Env) (vs : List Chunk)
    (ui d ci rt : String) (hvec : chunksForDoc vs d = []) :
    chunksForDoc (deleteDocumentEmbeddings
      (embedTaskVectors env (deleteDocumentEmbeddings vs ui d) ui d ci rt) ui d) d
      = [] := by
  rw [chunksForDoc_delete_eq]
  rw [List.filter_eq_nil_iff]
  intro c hc
  simp only [chunksForDoc, List.mem_filter] at hc
  obtain ⟨hcmem, hcsrc⟩ := hc
  have hnotvs : ∀ x : Chunk, x ∈ vs → (x.sourceDocumentId == d) = true → False := by
    intro x hx hsrc
    have : x ∈ chunksForDoc vs d := by
      simp only [chunksForDoc, List.mem_filter]
      exact ⟨hx, hsrc⟩
    rw [hvec] at this
    exact absurd this (List.not_mem_nil x)
  unfold embedTaskVectors at hcmem
  revert hcmem
  cases hch : env.chunker rt with
  | error e =>
    intro hcmem
    dsimp only at hcmem
    unfold deleteDocumentEmbeddings at hcmem
    simp only [List.mem_filter] at hcmem
    exact absurd (hnotvs c hcmem.1 hcsrc) not_false
  | ok chunkTexts =>
    intro hcmem
    dsimp only at hcmem
    by_cases hes : env.embedStoreOk
    · rw [if_pos hes] at hcmem
      rcases List.mem_append.mp hcmem with hleft | hright
      · unfold deleteDocumentEmbeddings at hleft
        simp only [List.mem_filter] at hleft
        exact absurd (hnotvs c hleft.1 hcsrc) not_false
      · obtain ⟨t, _, hteq⟩ := List.mem_map.mp hright
        subst hteq
        simp
    · rw [if_neg hes] at hcmem
      unfold deleteDocumentEmbeddings at hcmem
      simp only [List.mem_filter] at hcmem
      exact absurd (hnotvs c hcmem.1 hcsrc) not_false

/-- C1: for every run that reaches the enrichment fan-out (id parse,
record lookup, download, dedup miss, extraction with non-empty
non-placeholder text and metadata extraction all pass) in which at least
one of the six gathered enrichment jobs raises, the run raises the
first task error, the DocumentRecord ends FAILED with that error
recorded in `error_message`, and the vector store holds zero embedding
chunks for the document id afterwards (the embedding job's writes are
rolled back). -/
theorem C1_enrichment_all_or_nothing (env : Env) (pub : Nat → Bool)
    (st : PipelineState) (d : String) (document : DocRecord)
    (content rawText : String) (meta0 : List (String × Option String))
    (im : Nat × String)
    (hv : isValidObjectId d = true)
    (hf : findOneDoc st.documents (fun x => x.docId == d) = some document)
    (hd : env.download document.storageKey = .ok content)
    (hdd : findOneDoc st.documents (dedupPred document (env.hashFn content)) = none)
    (he : env.extractText content document.mimeType = .ok rawText)
    (hne : (rawText.data.isEmpty || pyStripLen rawText == 0) = false)
    (hpl : isPlaceholderText rawText = false)
    (hm : env.extractMeta (env.sterilize rawText) = .ok meta0)
    (hfail : firstError (gatherResults env rawText (env.sterilize rawText)) = some im)
    (hvec : chunksForDoc st.vectors d = []) :
    (orchestrate env pub st d).outcome = .error (.err (taskErrMsg im.fst im.snd))
    ∧ (∃ rec, (orchestrate env pub st d).st.documents.find? (fun x => x.docId == d)
          = some rec
        ∧ rec.status = "FAILED"
        ∧ rec.errorMessage = some (taskErrMsg im.fst im.snd))
    ∧ chunksForDoc (orchestrate env pub st d).st.vectors d = [] := by
  have hrun := orch_fanout_reach env pub st d document content rawText meta0
    hv hf hd hdd he hne hpl hm
  have hfind : List.find? (fun x => x.docId == d)
        (updateDoc
          (updateDoc st.documents d
            (metaCommitTransform (if env.detectAlbanian (env.sterilize rawText) then "sq" else "en")
              (categoryOf env (env.sterilize rawText)) (mapCaseNumber meta0) (env.hashFn content)))
          d (failTransform (taskErrMsg im.fst im.snd) (some (env.hashFn content))))
        = some (failTransform (taskErrMsg im.fst im.snd) (some (env.hashFn content))
            (metaCommitTransform (if env.detectAlbanian (env.sterilize rawText) then "sq" else "en")
              (categoryOf env (env.sterilize rawText)) (mapCaseNumber meta0)
              (env.hashFn content) document)) := by
      rw [find?_updateDoc _ d
        (failTransform (taskErrMsg im.fst im.snd) (some (env.hashFn content))) (fun x => rfl)]
      rw [find?_updateDoc _ d
        (metaCommitTransform (if env.detectAlbanian (env.sterilize rawText) then "sq" else "en")
          (categoryOf env (env.sterilize rawText)) (mapCaseNumber meta0) (env.hashFn content))
        (fun x => rfl)]
      rw [show st.documents.find? (fun x => x.docId == d) = some document from hf]
      rfl
  refine ⟨?_, ?_, ?_⟩
  · rw [hrun]
    simp only [fanoutStage, hfail, failedRun]
  · refine ⟨failTransform (taskErrMsg im.fst im.snd) (some (env.hashFn content))
      (metaCommitTransform (if env.detectAlbanian (env.sterilize rawText) then "sq" else "en")
        (categoryOf env (env.sterilize rawText)) (mapCaseNumber meta0)
        (env.hashFn content) document), ?_, rfl, rfl⟩
    rw [hrun]
    simp only [fanoutStage, hfail, failedRun, failurePath]
    exact hfind
  · rw [hrun]
    simp only [fanoutStage, hfail, failedRun, failurePath]
    rw [show (fanoutState env (metaCommittedState env st d rawText (env.hashFn content) meta0)
        d document.ownerId document.caseId rawText).vectors
        = embedTaskVectors env (deleteDocumentEmbeddings st.vectors document.ownerId d)
            document.ownerId d document.caseId rawText from rfl]
    exact chunksForDoc_after_rollback env st.vectors document.ownerId d
      document.caseId rawText hvec

/-- C1 witness: the graph job fails on a concrete run; the record ends
FAILED with the task error and no chunks remain. -/
theorem C1_witness :
    (orchestrate envGraphFail pubAll stA idA).outcome
        = .error (.err (taskErrMsg 4 "neo down"))
    ∧ (∃ rec, (orchestrate envGraphFail pubAll stA idA).st.documents.find?
          (fun x => x.docId == idA) = some rec
        ∧ rec.status = "FAILED"
        ∧ rec.errorMessage = some (taskErrMsg 4 "neo down"))
    ∧ chunksForDoc (orchestrate envGraphFail pubAll stA idA).st.vectors idA = [] := by
  exact C1_enrichment_all_or_nothing envGraphFail pubAll stA idA docA
    "FILE-CONTENT" sampleText [("document_number", some "DN-1")] (4, "neo down")
    rfl rfl rfl rfl rfl rfl (by decide) rfl rfl rfl

/-- C10: when the run passes extraction and metadata analysis and then a
fan-out job fails, the final record equals the metadata-committed record
with only `status`, `error_message` and `file_hash` overwritten
(`failTransform` touches exactly those three fields, and the rewritten
`file_hash` is the very value committed before the fan-out), so
`detected_language`, `category`, `metadata` and `file_hash` keep their
committed values. -/
theorem C10_failure_keeps_committed_fields (env : Env) (pub : Nat → Bool)
    (st : PipelineState) (d : String) (document : DocRecord)
    (content rawText : String) (meta0 : List (String × Option String))
    (im : Nat × String)
    (hv : isValidObjectId d = true)
    (hf : findOneDoc st.documents (fun x => x.docId == d) = some document)
    (hd : env.download document.storageKey = .ok content)
    (hdd : findOneDoc st.documents (dedupPred document (env.hashFn content)) = none)
    (he : env.extractText content document.mimeType = .ok rawText)
    (hne : (rawText.data.isEmpty || pyStripLen rawText == 0) = false)
    (hpl : isPlaceholderText rawText = false)
    (hm : env.extractMeta (env.sterilize rawText) = .ok meta0)
    (hfail : firstError (gatherResults env rawText (env.sterilize rawText)) = some im) :
    (orchestrate env pub st d).st.documents.find? (fun x => x.docId == d)
      = some (failTransform (taskErrMsg im.fst im.snd) (some (env.hashFn content))
          (metaCommitTransform
            (if env.detectAlbanian (env.sterilize rawText) then "sq" else "en")
            (categoryOf env (env.sterilize rawText)) (mapCaseNumber meta0)
            (env.hashFn content) document))
    ∧ ∀ rec, (orchestrate env pub st d).st.documents.find? (fun x => x.docId == d)
          = some rec →
        rec.detectedLanguage
            = some (if env.detectAlbanian (env.sterilize rawText) then "sq" else "en")
        ∧ rec.category = some (categoryOf env (env.sterilize rawText))
        ∧ rec.metadata = mapCaseNumber meta0
        ∧ rec.fileHash = some (env.hashFn content)
        ∧ rec.status = "FAILED"
        ∧ rec.errorMessage = some (taskErrMsg im.fst im.snd) := by
  have hrun := orch_fanout_reach env pub st d document content rawText meta0
    hv hf hd hdd he hne hpl hm
  have hfind : (orchestrate env pub st d).st.documents.find? (fun x => x.docId == d)
      = some (failTransform (taskErrMsg im.fst im.snd) (some (env.hashFn content))
          (metaCommitTransform
            (if env.detectAlbanian (env.sterilize rawText) then "sq" else "en")
            (categoryOf env (env.sterilize rawText)) (mapCaseNumber meta0)
            (env.hashFn content) document)) := by
    rw [hrun]
    simp only [fanoutStage, fanoutState, hfail, failedRun, failurePath, metaCommittedState]
    rw [find?_updateDoc _ d
      (failTransform (taskErrMsg im.fst im.snd) (some (env.hashFn content))) (fun x => rfl)]
    rw [find?_updateDoc _ d
      (metaCommitTransform (if env.detectAlbanian (env.sterilize rawText) then "sq" else "en")
        (categoryOf env (env.sterilize rawText)) (mapCaseNumber meta0) (env.hashFn content))
      (fun x => rfl)]
    rw [show st.documents.find? (fun x => x.docId == d) = some document from hf]
    rfl
  refine ⟨hfind, ?_⟩
  intro rec hrec
  rw [hfind] at hrec
  cases hrec
  exact ⟨rfl, rfl, rfl, rfl, rfl, rfl⟩

/-- C10 witness: the concrete graph-failure run keeps the committed
language, category, metadata and hash while ending FAILED. -/
theorem C10_witness :
    (orchestrate envGraphFail pubAll stA idA).st.documents.find?
        (fun x => x.docId == idA)
      = some (failTransform (taskErrMsg 4 "neo down") (some "hash-FILE-CONTENT")
          (metaCommitTransform "sq" "Fatura"
            [("document_number", some "DN-1"), ("case_number", some "DN-1")]
            "hash-FILE-CONTENT" docA))
    ∧ ∀ rec, (orchestrate envGraphFail pubAll stA idA).st.documents.find?
          (fun x => x.docId == idA) = some rec →
        rec.detectedLanguage = some "sq"
        ∧ rec.category = some "Fatura"
        ∧ rec.metadata = [("document_number", some "DN-1"), ("case_number", some "DN-1")]
        ∧ rec.fileHash = some "hash-FILE-CONTENT"
        ∧ rec.status = "FAILED"
        ∧ rec.errorMessage = some (taskErrMsg 4 "neo down") := by
  exact C10_failure_keeps_committed_fields envGraphFail pubAll stA idA docA
    "FILE-CONTENT" sampleText [("document_number", some "DN-1")] (4, "neo down")
    rfl rfl rfl rfl rfl rfl (by decide) rfl rfl

/-- C2: the dedup lookup filters on the `processed_text_key` field, but
the success path (`finalize_document_processing`) writes
`processed_text_storage_key`, so after a first byte-identical upload is
fully processed the second upload misses the dedup lookup, takes the
full-processing path and performs its own embedding-creation call: the
first run leaves `processed_text_key` absent, the second run's dedup flag
is false, and each of the two runs made one
`create_and_store_embeddings_from_chunks` call. -/
theorem C2_second_identical_upload_reprocesses :
    runA.outcome = .ok ()
    ∧ (runA.st.documents.find? (fun x => x.docId == idA)).map
        (fun r => r.processedTextKey) = some none
    ∧ (runA.st.documents.find? (fun x => x.docId == idA)).map
        (fun r => r.status) = some "READY"
    ∧ runA.embedCreateCalls = 1
    ∧ runB.dedupHit = false
    ∧ runB.embedCreateCalls = 1
    ∧ runB.outcome = .ok ()
    ∧ (runB.st.documents.find? (fun x => x.docId == idB)).map
        (fun r => r.status) = some "READY" := by
  exact ⟨rfl, rfl, rfl, rfl, rfl, rfl, rfl, rfl⟩

/-- C5: on a fully successful run the finalize call commits READY and the
keys in one update, but its positional arguments are swapped at the call
site: the record's `processed_text_storage_key` receives the LLM summary
(SUMMARY-TEXT) while the `summary` field receives the storage key T1
returned by the raw-text storage job. -/
theorem C5_finalize_swaps_summary_and_text_key :
    runA.outcome = .ok ()
    ∧ envAllOk.uploadTextKey = .ok "T1"
    ∧ envAllOk.summaryRes sampleText = .ok "SUMMARY-TEXT"
    ∧ (runA.st.documents.find? (fun x => x.docId == idA)).map
        (fun r => r.status) = some "READY"
    ∧ (runA.st.documents.find? (fun x => x.docId == idA)).map
        (fun r => r.processedTextStorageKey) = some (some "SUMMARY-TEXT")
    ∧ (runA.st.documents.find? (fun x => x.docId == idA)).map
        (fun r => r.summary) = some (some "T1")
    ∧ (runA.st.documents.find? (fun x => x.docId == idA)).map
        (fun r => r.previewStorageKey) = some (some "P1")
    ∧ some "SUMMARY-TEXT" ≠ some "T1" := by
  exact ⟨rfl, rfl, rfl, rfl, rfl, rfl, rfl, by decide⟩

/-- C6: the dedup clone branch writes the literal status string
PROCESSED, which is not one of the `DocumentStatus` enum values PENDING,
READY, FAILED declared in `backend/app/models/document.py`. -/
theorem C6_dedup_writes_out_of_enum_status :
    runDedup.dedupHit = true
    ∧ runDedup.outcome = .ok ()
    ∧ (runDedup.st.documents.find? (fun x => x.docId == idB)).map
        (fun r => r.status) = some "PROCESSED"
    ∧ documentStatusValues.contains "PROCESSED" = false := by
  exact ⟨rfl, rfl, rfl, rfl⟩

/-- C4 counterexample: a document whose direct extraction returns 60
characters (under the 100-character threshold) does not trigger the OCR
fallback: `text_extraction_service` defines no `extract_text_with_ocr`,
so the `getattr` lookup yields None and the fallback block is skipped
while the run continues. -/
theorem C4_counterexample :
    pyStripLen shortText < OCR_FALLBACK_THRESHOLD
    ∧ envShortText.extractText "FILE-CONTENT" "application/pdf" = .ok shortText
    ∧ runShort.ocrInvoked = false
    ∧ runShort.outcome = .ok () := by
  exact ⟨by decide, rfl, rfl, rfl⟩

/-- C4 amended: because `text_extraction_service` does not define
`extract_text_with_ocr`, the pipeline-level OCR fallback is never invoked
for any document, whatever the extracted length; in particular a text of
length at least 100 that is not a placeholder never triggers OCR, and a
text under 100 characters proceeds directly to the emptiness and
placeholder checks without OCR. -/
theorem C4_amended_ocr_never_invoked (env : Env) (pub : Nat → Bool)
    (st : PipelineState) (d : String) :
    ocrFallbackAvailable = false
    ∧ (orchestrate env pub st d).ocrInvoked = false :=
  ⟨rfl, orch_ocr env pub st d⟩

set_option maxRecDepth 8000 in
/-- C8: refuted by the copy-failure fall-through: on a dedup hit whose
`copy_document_embeddings` raises, the run emits the percent-50
duplicate event and then falls through to full processing, whose next
event carries percent 20, so the percents of that run are
5, 50, 20, 35, 50, 75, 100 — not monotonically non-decreasing — even
though the run completes successfully. -/
theorem C8_copy_failure_percent_regression :
    percentsOf runDedupCopyFail.log = [5, 50, 20, 35, 50, 75, 100]
    ∧ ¬ List.Pairwise (· ≤ ·) (percentsOf runDedupCopyFail.log)
    ∧ runDedupCopyFail.outcome = .ok ()
    ∧ runDedupCopyFail.dedupHit = false := by
  have h1 : percentsOf runDedupCopyFail.log = [5, 50, 20, 35, 50, 75, 100] := rfl
  refine ⟨h1, ?_, rfl, rfl⟩
  rw [h1]
  decide

/-- C9: publish failures never propagate: the final pipeline state and
outcome, and the whole task-wrapper result, are identical whichever
publish attempts raise. -/
theorem C9_publish_failures_never_affect_state (env : Env)
    (pub1 pub2 : Nat → Bool) (st : PipelineState) (d : String) :
    (orchestrate env pub1 st d).st = (orchestrate env pub2 st d).st
    ∧ (orchestrate env pub1 st d).outcome = (orchestrate env pub2 st d).outcome
    ∧ process_document_task env pub1 st d = process_document_task env pub2 st d :=
  ⟨orch_st_pub env pub1 pub2 st d, orch_outcome_pub env pub1 pub2 st d,
   attempts_pub env pub1 pub2 d (celeryMaxRetries + 1) st⟩

/-- C3 counterexample: the retry delay is the constant `countdown` of 10
seconds for every retry, not an increasing delay; and a wrapper run that
completes successfully through the dedup branch leaves the record in the
out-of-enum PROCESSED state, which is neither READY nor FAILED. -/
theorem C3_counterexample :
    celeryRetryCountdown 0 = celeryRetryCountdown 1
    ∧ celeryRetryDelays = [10, 10, 10, 10, 10]
    ∧ (process_document_task envAllOk pubAll stDedup idB).snd = .succeeded
    ∧ ((process_document_task envAllOk pubAll stDedup idB).fst.documents.find?
        (fun x => x.docId == idB)).map (fun r => r.status) = some "PROCESSED"
    ∧ ("PROCESSED" : String) ≠ "READY"
    ∧ ("PROCESSED" : String) ≠ "FAILED" := by
  exact ⟨rfl, rfl, rfl, rfl, by decide, by decide⟩

/-- C3 amended: on a missing record the task is retried up to 5 times
with a constant 10-second delay and then abandoned without touching the
state; when the wrapper completes with a failure it has written
status=FAILED to the record; when it completes successfully the record is
READY (full path) or the out-of-enum PROCESSED (dedup path) — in either
completed case the record is never left PENDING. -/
theorem C3_amended_bounded_retry_and_terminal_states (env : Env)
    (pub : Nat → Bool) (st : PipelineState) (d : String)
    (hv : isValidObjectId d = true) :
    celeryRetryDelays = List.replicate celeryMaxRetries 10
    ∧ (findOneDoc st.documents (fun x => x.docId == d) = none →
        process_document_task env pub st d = (st, .abandoned d))
    ∧ (∀ m, (process_document_task env pub st d).snd = .failed m →
        ∀ rec, (process_document_task env pub st d).fst.documents.find?
            (fun x => x.docId == d) = some rec → rec.status = "FAILED")
    ∧ ((process_document_task env pub st d).snd = .succeeded →
        ∀ rec, (process_document_task env pub st d).fst.documents.find?
            (fun x => x.docId == d) = some rec →
          rec.status = "READY" ∨ rec.status = "PROCESSED") := by
  refine ⟨rfl, ?_, ?_, ?_⟩
  · intro hn
    have h := orch_lookup_nf env pub st d hv hn
    have ho : (orchestrate env pub st d).outcome = .error (.notFound d) := by
      rw [h]
    unfold process_document_task
    exact attempts_nf env pub d d st ho celeryMaxRetries
  · intro m hm rec hrec
    unfold process_document_task at hm hrec
    cases ho : (orchestrate env pub st d).outcome with
    | ok u =>
      cases u
      rw [attempts_succ_ok env pub d st celeryMaxRetries ho] at hm
      simp at hm
    | error pe =>
      cases pe with
      | notFound s =>
        rw [attempts_nf env pub d s st ho celeryMaxRetries] at hm
        simp at hm
      | err m0 =>
        rw [attempts_succ_err env pub d st celeryMaxRetries m0 ho] at hm hrec
        simp only at hm hrec
        injection hm with hmm
        subst hmm
        rw [find?_updateDoc _ d (wrapperFailTransform m0) (fun x => rfl)] at hrec
        cases hb : (orchestrate env pub st d).st.documents.find?
            (fun x => x.docId == d) with
        | none => rw [hb] at hrec; simp at hrec
        | some base =>
          rw [hb] at hrec
          simp only [Option.map_some'] at hrec
          cases hrec
          rfl
  · intro hs rec hrec
    unfold process_document_task at hs hrec
    cases ho : (orchestrate env pub st d).outcome with
    | ok u =>
      cases u
      rw [attempts_succ_ok env pub d st celeryMaxRetries ho] at hrec
      simp only at hrec
      exact orch_ok_status env pub st d hv ho rec hrec
    | error pe =>
      cases pe with
      | notFound s =>
        rw [attempts_nf env pub d s st ho celeryMaxRetries] at hs
        simp at hs
      | err m0 =>
        rw [attempts_succ_err env pub d st celeryMaxRetries m0 ho] at hs
        simp at hs

/-- C3 witness: the amended statement at a concrete input — the
graph-failure run ends with the wrapper reporting failure and the record
FAILED. -/
theorem C3_witness :
    celeryRetryDelays = List.replicate celeryMaxRetries 10
    ∧ (process_document_task envGraphFail pubAll stA idA).snd
        = .failed (taskErrMsg 4 "neo down")
    ∧ ∀ rec, (process_document_task envGraphFail pubAll stA idA).fst.documents.find?
        (fun x => x.docId == idA) = some rec → rec.status = "FAILED" := by
  have h := C3_amended_bounded_retry_and_terminal_states envGraphFail pubAll stA idA rfl
  exact ⟨h.1, rfl, h.2.2.1 (taskErrMsg 4 "neo down") rfl⟩

/-- C7: the cascading delete verifies ownership before any deletion (an
absent or non-owned record yields the not-found error with no state
change); whenever the record is owned, the DocumentRecord itself is
removed whatever subsystems fail, and it is the last completed deletion
step; each derived store's outcome depends only on its own failure
flags, so one subsystem's failure leaves the others untouched (isolation);
and with a healthy findings subsystem the call removes exactly the
findings matching the document id in either representation and returns
their ids. -/
theorem C7_cascading_delete (denv : DeleteEnv) (st : DeleteState)
    (docId ownerId : String) :
    (st.documents.find? (fun x => x.docId == docId && x.ownerId == ownerId) = none →
      delete_document_by_id denv st docId ownerId
        = (st, .error "Document not found.", []))
    ∧ (∀ record,
        st.documents.find? (fun x => x.docId == docId && x.ownerId == ownerId)
          = some record →
        (delete_document_by_id denv st docId ownerId).fst.documents
            = st.documents.filter (fun x => x.docId != docId)
        ∧ ((delete_document_by_id denv st docId ownerId).snd.snd).getLast?
            = some DeleteAction.record
        ∧ (∀ denv' : DeleteEnv, denv'.graphOk = denv.graphOk →
            (delete_document_by_id denv' st docId ownerId).fst.graphDocs
              = (delete_document_by_id denv st docId ownerId).fst.graphDocs)
        ∧ (∀ denv' : DeleteEnv, denv'.vectorOk = denv.vectorOk →
            (delete_document_by_id denv' st docId ownerId).fst.vectors
              = (delete_document_by_id denv st docId ownerId).fst.vectors)
        ∧ (∀ denv' : DeleteEnv, denv'.eventsDeleteOk = denv.eventsDeleteOk →
            denv'.alertsDeleteOk = denv.alertsDeleteOk →
            (delete_document_by_id denv' st docId ownerId).fst.calendarEvents
              = (delete_document_by_id denv st docId ownerId).fst.calendarEvents
            ∧ (delete_document_by_id denv' st docId ownerId).fst.alerts
              = (delete_document_by_id denv st docId ownerId).fst.alerts)
        ∧ (∀ denv' : DeleteEnv, denv'.findingsFindOk = denv.findingsFindOk →
            denv'.findingsDeleteOk = denv.findingsDeleteOk →
            (delete_document_by_id denv' st docId ownerId).fst.findings
              = (delete_document_by_id denv st docId ownerId).fst.findings
            ∧ (delete_document_by_id denv' st docId ownerId).snd.fst
              = (delete_document_by_id denv st docId ownerId).snd.fst)
        ∧ (denv.findingsFindOk = true → denv.findingsDeleteOk = true →
            (delete_document_by_id denv st docId ownerId).snd.fst
              = .ok ((st.findings.filter
                  (fun f => refMatches docId f.documentId)).map (fun f => f.findingId))
            ∧ (delete_document_by_id denv st docId ownerId).fst.findings
              = st.findings.filter (fun f => ! refMatches docId f.documentId))) := by
  constructor
  · intro hn
    unfold delete_document_by_id
    rw [hn]
  · intro record hr
    refine ⟨?_, ?_, ?_, ?_, ?_, ?_, ?_⟩
    · unfold delete_document_by_id
      rw [hr]
    · unfold delete_document_by_id
      rw [hr]
      simp only [← List.append_assoc]
      rw [List.getLast?_concat]
    · intro denv' hg
      unfold delete_document_by_id
      rw [hr, hg]
    · intro denv' hvk
      unfold delete_document_by_id
      rw [hr, hvk]
    · intro denv' hek hak
      unfold delete_document_by_id
      rw [hr, hek, hak]
      exact ⟨rfl, rfl⟩
    · intro denv' hff hfd
      unfold delete_document_by_id
      rw [hr, hff, hfd]
      exact ⟨rfl, rfl⟩
    · intro hff hfd
      unfold delete_document_by_id
      rw [hr, hff, hfd]
      exact ⟨rfl, rfl⟩

/-- C7 witness: concrete delete with a failing graph subsystem — the
record and both representations of its findings are removed, their ids
are returned, the trace ends with the record deletion, and the graph
store is left as it was. -/
theorem C7_witness :
    (delete_document_by_id denvGraphFail stDel idC "U").snd.fst = .ok ["f1", "f2"]
    ∧ ((delete_document_by_id denvGraphFail stDel idC "U").snd.snd).getLast?
        = some DeleteAction.record
    ∧ (delete_document_by_id denvGraphFail stDel idC "U").fst.documents = []
    ∧ (delete_document_by_id denvGraphFail stDel idC "U").fst.graphDocs
        = stDel.graphDocs := by
  have h := (C7_cascading_delete denvGraphFail stDel idC "U").2 docD rfl
  refine ⟨(h.2.2.2.2.2.2 rfl rfl).1, h.2.1, ?_, ?_⟩
  · rw [h.1]
    rfl
  · rw [h.2.2.1 denvGraphFail rfl]
    rfl

end Juristi
